import Mathlib

/-!
Verification development for the OpenBenchPublisher job/request lifecycle and
polling protocol.  The definitions below are shallow embeddings of the
client-side poller and the Next.js route handlers found in the repository
(`web-ui-next/src/components/ChatInterface.tsx`, the `download-progress`
and `start-full-run` route proxies, and the `BuildForm` component), together
with a model of the backend Job Store / Request Coordinator, which lives in
the FastAPI service that is not part of the checked sources and is therefore
modelled from the specification.
-/

set_option maxRecDepth 100000

namespace OBP

/-- Truthiness-respecting JavaScript `a || d` for an optional string value:
`undefined` and the empty string are falsy and select the default. -/
def jsOrStr (o : Option String) (d : String) : String :=
  match o with
  | some s => if s = "" then d else s
  | none => d

/-- Truthiness-respecting JavaScript `a || d` for an optional number:
`undefined` and `0` are falsy and select the default. -/
def jsOrInt (o : Option Int) (d : Int) : Int :=
  match o with
  | some v => if v = 0 then d else v
  | none => d

/-- JavaScript `a >= b` on possibly-`undefined` numeric fields: a comparison
with `undefined` is `false` (NaN semantics); two present numbers compare
as integers. -/
def jsGe (a b : Option Int) : Bool :=
  match a, b with
  | some x, some y => decide (y ≤ x)
  | _, _ => false

/-- String interpolation `${x}` of a possibly-`undefined` number. -/
def jsNumStr (o : Option Int) : String :=
  match o with
  | some v => toString v
  | none => "undefined"

/-- Substring test on character lists: some suffix of `l` starts with `sub`. -/
def listContains (l sub : List Char) : Bool :=
  (List.range (l.length + 1)).any fun i => List.isPrefixOf sub (l.drop i)

/-- JavaScript `s.includes(sub)`: exact substring containment. -/
def jsIncludes (s sub : String) : Bool :=
  listContains s.data sub.data

/-- JavaScript `s.trim()`: strip leading and trailing whitespace, modelled
on the character list so it is kernel-executable. -/
def jsTrim (s : String) : String :=
  String.mk (((s.data.dropWhile Char.isWhitespace).reverse.dropWhile Char.isWhitespace).reverse)

/-- Role of a chat message (`Message.role` union type in ChatInterface.tsx). -/
inductive Role
  | user
  | assistant
deriving DecidableEq

/-- Chat message as kept in the ChatInterface component state; `plan` is
dropped (never touched by the poller). -/
structure Message where
  id : String
  role : Role
  content : String
  timestamp : String
  request_id : Option String := none
deriving DecidableEq

/-- Chat record in the ChatInterface component state. -/
structure Chat where
  id : String
  title : String
  messages : List Message
  createdAt : String
deriving DecidableEq

/-- Entry of the `samplingStatus` record in ChatInterface.tsx. -/
structure SamplingStatus where
  request_id : String
  status : String
  progress : Int
  total : Int
  samples : Option (List String) := none
deriving DecidableEq

/-- Parsed JSON body of a successful `download-progress` response; every
field is optional, matching the loosely-typed payload the client reads. -/
structure ProgressData where
  status : Option String := none
  downloaded : Option Int := none
  total : Option Int := none
  samples : Option (List String) := none
deriving DecidableEq

/-- Outcome of one `fetch` inside the poll loop: the fetch can throw, return
a non-ok HTTP response, or return ok with a JSON body. -/
inductive TickResult
  | fetchThrow
  | httpErr
  | ok (d : ProgressData)
deriving DecidableEq

/-- HTTP requests the ChatInterface component can issue.  The poll loop
fetches `/api/download-progress` with no method option, hence a GET; the
other two constructors are the component's mutating requests, listed so
that "the poller only reads" is expressible. -/
inductive ClientRequest
  | getProgress (request_id : String)
  | postPlanAndSample (query : String) (total_items : Int) (data_type : String)
  | postStartFullRun (request_id : String) (persist : Bool)
deriving DecidableEq

/-- JavaScript object-spread update `{...prev, [k]: v}` restricted to the
keys in insertion order: replaces the binding of `k` or appends it. -/
def setKey : List (String × SamplingStatus) → String → SamplingStatus → List (String × SamplingStatus)
  | [], k, v => [(k, v)]
  | (k', v') :: rest, k, v =>
      if k' = k then (k, v) :: rest else (k', v') :: setKey rest k v

/-- Text of the completion chat message built at ChatInterface.tsx:340,
interpolating the raw `data.downloaded` field. -/
def completionContent (downloaded : Option Int) : String :=
  "✅ Dataset sampling completed! " ++ jsNumStr downloaded ++
    " samples ready.\n\n📂 Go to the **Datasets** tab to review samples and start the full download when ready."

/-- Completion message object built at ChatInterface.tsx:337, with the
freshly generated message id and timestamp passed in. -/
def mkCompletionMessage (mid ts request_id : String) (downloaded : Option Int) : Message :=
  { id := mid
    role := .assistant
    content := completionContent downloaded
    timestamp := ts
    request_id := some request_id }

/-- Presentation-layer de-duplication check at ChatInterface.tsx:348: the
chat already holds a completion message for this request id. -/
def hasCompletionMsg (request_id : String) (c : Chat) : Bool :=
  c.messages.any fun m =>
    jsIncludes m.content "Dataset sampling completed" && m.request_id == some request_id

/-- Per-chat body of the `setChats` updater at ChatInterface.tsx:345-359:
append the completion message to the chat named `chatId` unless it
already has one for `request_id`. -/
def addCompletionOne (chatId request_id : String) (msg : Message) (chat : Chat) : Chat :=
  if chat.id = chatId then
    if hasCompletionMsg request_id chat then chat
    else { chat with messages := chat.messages ++ [msg] }
  else chat

/-- State update applied by `setChats` at ChatInterface.tsx:345-359. -/
def addCompletionMessage (chatId request_id : String) (msg : Message) (chats : List Chat) : List Chat :=
  chats.map (addCompletionOne chatId request_id msg)

/-- Client-side state the poll loop can observe and mutate: the
`samplingStatus` record and the chat list. -/
structure PollState where
  sampling : List (String × SamplingStatus)
  chats : List Chat
deriving DecidableEq

/-- Stop condition of a poll iteration, ChatInterface.tsx:333:
`data.status === 'completed' || data.downloaded >= data.total`. -/
def stopCond (d : ProgressData) : Bool :=
  d.status == some "completed" || jsGe d.downloaded d.total

/-- One iteration of the `setInterval` callback in `pollSamplingStatus`
(ChatInterface.tsx:314-366).  Returns the new client state plus `true`
when the iteration called `clearInterval` (a thrown fetch, or the stop
condition holding on an ok response).  `mid` and `ts` stand for the fresh
message id and timestamp generated at that iteration. -/
def pollTick (request_id chatId mid ts : String) (t : TickResult) (st : PollState) :
    PollState × Bool :=
  match t with
  | .fetchThrow => (st, true)
  | .httpErr => (st, false)
  | .ok d =>
      let st1 : PollState :=
        { st with
            sampling := setKey st.sampling request_id
              { request_id := request_id
                status := jsOrStr d.status "running"
                progress := jsOrInt d.downloaded 0
                total := jsOrInt d.total 0
                samples := d.samples } }
      if stopCond d then
        ({ st1 with
            chats := addCompletionMessage chatId request_id
              (mkCompletionMessage mid ts request_id d.downloaded) st1.chats },
          true)
      else (st1, false)

/-- Poll interval in milliseconds, the literal at ChatInterface.tsx:366. -/
def pollIntervalMs : Nat := 2000

/-- Poller give-up bound in milliseconds, the literal at
ChatInterface.tsx:369 (`setTimeout(() => clearInterval(pollInterval), 300000)`). -/
def pollMaxWaitMs : Nat := 300000

/-- Number of poll iterations that fit before the give-up timeout clears
the interval. -/
def maxTicks : Nat := pollMaxWaitMs / pollIntervalMs

/-- Result of running a whole poll loop: the final client state and the
list of HTTP requests the loop issued, in order. -/
structure PollRun where
  state : PollState
  fetches : List ClientRequest
deriving DecidableEq

/-- Fuel-indexed unfolding of the poll loop.  `f` is the environment's
response to the `i`-th fetch, `gen i` the fresh message id and timestamp
available at iteration `i`.  The loop stops when an iteration clears the
interval or when the fuel (the give-up timeout) runs out. -/
def runPollAux (request_id chatId : String) (gen : Nat → String × String)
    (f : Nat → TickResult) : Nat → Nat → PollState → PollRun
  | 0, _, st => ⟨st, []⟩
  | fuel + 1, i, st =>
      let (st', cleared) := pollTick request_id chatId (gen i).1 (gen i).2 (f i) st
      if cleared then ⟨st', [ClientRequest.getProgress request_id]⟩
      else
        let r := runPollAux request_id chatId gen f fuel (i + 1) st'
        ⟨r.state, ClientRequest.getProgress request_id :: r.fetches⟩

/-- The poll loop of `pollSamplingStatus`: at most `maxTicks` iterations
(one every `pollIntervalMs`, cleared after `pollMaxWaitMs`). -/
def runPoll (request_id chatId : String) (gen : Nat → String × String)
    (f : Nat → TickResult) (st : PollState) : PollRun :=
  runPollAux request_id chatId gen f maxTicks 0 st

/-- Response classes after which the loop keeps going: a non-ok HTTP
response, or an ok response that does not meet the stop condition. -/
def tickContinues (t : TickResult) : Bool :=
  match t with
  | .fetchThrow => false
  | .httpErr => true
  | .ok d => !stopCond d

/-- Calls a Next.js route handler can make against the FastAPI backend.
The handlers in the sources use a plain `fetch` (GET), or `fetch` with
`method: POST`; `del` exists so that "issues no mutating call" is a
statement, not a tautology of the type. -/
inductive BackendCall
  | get (path request_id : String)
  | post (path : String)
  | del (path : String)
deriving DecidableEq

/-- Classifier for read-only backend calls. -/
def BackendCall.isGet : BackendCall → Bool
  | .get _ _ => true
  | _ => false

/-- Outcome of the backend fetch made by the `download-progress` route
handler: the fetch (or `res.json()`) throws, or yields a response with an
`ok` flag, HTTP status, and JSON body. -/
inductive BackendFetch
  | throwErr
  | resp (ok : Bool) (status : Nat) (d : ProgressData)
deriving DecidableEq

/-- JSON body of a `download-progress` route response: an error object or
the backend payload passed through. -/
inductive DPBody
  | err (msg : String)
  | data (d : ProgressData)
deriving DecidableEq

/-- The GET handler of the `download-progress` route proxy (src/unnamed/
part_005): missing or empty `request_id` is falsy and yields 400 before
any backend fetch; otherwise one GET is forwarded to the backend and its
failure modes are translated.  Returns the HTTP response and the list of
backend calls performed. -/
def downloadProgressRoute (request_id : Option String) (backend : BackendFetch) :
    (Nat × DPBody) × List BackendCall :=
  match request_id with
  | none => ((400, .err "request_id parameter is required"), [])
  | some rid =>
      if rid = "" then ((400, .err "request_id parameter is required"), [])
      else
        let call := BackendCall.get "api/download-progress" rid
        match backend with
        | .throwErr => ((500, .err "Failed to connect to backend"), [call])
        | .resp ok status d =>
            if ok then ((200, .data d), [call])
            else ((status, .err "Failed to fetch download progress"), [call])

/-- Outcome of the backend fetch made by the `start-full-run` route proxy:
a thrown error with a message, or a response with `ok` flag, status, and
an optional `detail` field in its JSON body. -/
inductive FastApiResult
  | throwErr (msg : String)
  | resp (ok : Bool) (status : Nat) (detail : Option String)
deriving DecidableEq

/-- JSON body of a `start-full-run` route response: the backend payload
passed through on success, or a `detail` error object. -/
inductive ProxyBody
  | data
  | detail (msg : String)
deriving DecidableEq

/-- The POST handler of the `start-full-run` route proxy (src/unnamed/
part_006): forwards the body to FastAPI; a non-ok backend response is
translated to `{detail: data.detail || 'FastAPI error'}` with the
backend's status; a thrown fetch yields 500 with the error message. -/
def startFullRunRoute : FastApiResult → Nat × ProxyBody
  | .throwErr m => (500, .detail m)
  | .resp ok status d =>
      if ok then (200, .data) else (status, .detail (jsOrStr d "FastAPI error"))

/-- Kind of an asynchronous job (§3 of the spec). -/
inductive JobKind
  | sample
  | full_download
deriving DecidableEq

/-- Status of an asynchronous job (§3 of the spec). -/
inductive JobStatus
  | pending
  | running
  | completed
  | error
deriving DecidableEq

/-- Terminal statuses: `completed` and `error`. -/
def JobStatus.isTerminal : JobStatus → Bool
  | .completed => true
  | .error => true
  | _ => false

/-- Rank of a status along the forward-only transition order
`pending → running → completed/error`. -/
def statusRank : JobStatus → Nat
  | .pending => 0
  | .running => 1
  | .completed => 2
  | .error => 2

/-- Error taxonomy of §7 of the spec, extended with `InvalidInput` for
submission-time validation failures. -/
inductive ObpError
  | NotFound
  | InvalidTransition
  | StoreUnavailable
  | Timeout
  | UpstreamError
  | NotReady
  | InvalidInput
deriving DecidableEq

/-- Modelled from the spec: the Job record of §3.  The backend Job Store
lives in the FastAPI service, which is absent from the checked sources;
fields and their presence conditions follow §3 verbatim. -/
structure Job where
  kind : JobKind
  status : JobStatus
  progress : Nat
  total : Option Nat
  result_ref : Option String
  error_message : Option String
  created_at : Nat
  updated_at : Nat
deriving DecidableEq

/-- Modelled from the spec: the Job Store of §4.1 as a map from request
ids to jobs, with a fresh-id counter and a logical clock used to bump
`updated_at` on every mutation. -/
structure JobStore where
  jobs : Nat → Option Job
  nextId : Nat
  clock : Nat

/-- The Job Store holding no jobs. -/
def emptyStore : JobStore :=
  { jobs := fun _ => none, nextId := 0, clock := 0 }

/-- Store with the binding of `rid` replaced and the clock bumped. -/
def JobStore.setJob (s : JobStore) (rid : Nat) (j : Job) : JobStore :=
  { s with
      jobs := fun r => if r = rid then some j else s.jobs r
      clock := s.clock + 1 }

/-- Modelled from the spec: §4.1 `create(kind, total_hint)` — allocates a
fresh id and inserts a pending job with zero progress.  (The
`StoreUnavailable` failure mode is not modelled; the store is always
reachable here.) -/
def JobStore.create (s : JobStore) (kind : JobKind) (total_hint : Option Nat) :
    JobStore × Nat :=
  let rid := s.nextId
  let j : Job :=
    { kind := kind
      status := .pending
      progress := 0
      total := total_hint
      result_ref := none
      error_message := none
      created_at := s.clock + 1
      updated_at := s.clock + 1 }
  ({ jobs := fun r => if r = rid then some j else s.jobs r
     nextId := s.nextId + 1
     clock := s.clock + 1 },
    rid)

/-- Modelled from the spec: §4.1 `update_progress` — fails with `NotFound`
for an unknown id and `InvalidTransition` on a terminal job; otherwise
advances `progress` monotonically, optionally refines `total`, and sets
the status to `running`.  Progress and the refined total are clamped
against each other so the §3 invariant `progress ≤ total` is preserved. -/
def JobStore.update_progress (s : JobStore) (rid p : Nat) (t : Option Nat) :
    Except ObpError JobStore :=
  match s.jobs rid with
  | none => .error .NotFound
  | some j =>
      if j.status.isTerminal then .error .InvalidTransition
      else
        match t, j.total with
        | some v, _ =>
            .ok (s.setJob rid
              { j with
                  status := .running
                  progress := max j.progress (min p (max v j.progress))
                  total := some (max v j.progress)
                  updated_at := s.clock + 1 })
        | none, some T =>
            .ok (s.setJob rid
              { j with
                  status := .running
                  progress := max j.progress (min p T)
                  total := some T
                  updated_at := s.clock + 1 })
        | none, none =>
            .ok (s.setJob rid
              { j with
                  status := .running
                  progress := max j.progress p
                  total := none
                  updated_at := s.clock + 1 })

/-- Modelled from the spec: §4.1 `complete(request_id, result_ref)` — sets
`completed`, freezes `progress` at `total` (or its last known value), and
stores the result reference; `InvalidTransition` if already terminal. -/
def JobStore.complete (s : JobStore) (rid : Nat) (ref : String) :
    Except ObpError JobStore :=
  match s.jobs rid with
  | none => .error .NotFound
  | some j =>
      if j.status.isTerminal then .error .InvalidTransition
      else
        .ok (s.setJob rid
          { j with
              status := .completed
              progress := j.total.getD j.progress
              result_ref := some ref
              updated_at := s.clock + 1 })

/-- Modelled from the spec: §4.1 `fail(request_id, error_message)` — sets
`error`; `InvalidTransition` if already terminal. -/
def JobStore.fail (s : JobStore) (rid : Nat) (msg : String) :
    Except ObpError JobStore :=
  match s.jobs rid with
  | none => .error .NotFound
  | some j =>
      if j.status.isTerminal then .error .InvalidTransition
      else
        .ok (s.setJob rid
          { j with
              status := .error
              error_message := some msg
              updated_at := s.clock + 1 })

/-- Mutating Job Store operations, for reasoning over operation sequences. -/
inductive StoreOp
  | create (kind : JobKind) (hint : Option Nat)
  | update (rid p : Nat) (t : Option Nat)
  | complete (rid : Nat) (ref : String)
  | fail (rid : Nat) (msg : String)
deriving DecidableEq

/-- Apply one operation; a failing operation leaves the store unchanged. -/
def applyOp (s : JobStore) : StoreOp → JobStore
  | .create k h => (s.create k h).1
  | .update rid p t =>
      match s.update_progress rid p t with
      | .ok s' => s'
      | .error _ => s
  | .complete rid ref =>
      match s.complete rid ref with
      | .ok s' => s'
      | .error _ => s
  | .fail rid msg =>
      match s.fail rid msg with
      | .ok s' => s'
      | .error _ => s

/-- Store reached by a sequence of operations from the empty store. -/
def applyOps (ops : List StoreOp) : JobStore :=
  ops.foldl applyOp emptyStore

/-- The §3 per-job invariant: `progress ≤ total` once `total` is known. -/
def jobInv (j : Job) : Prop :=
  ∀ T, j.total = some T → j.progress ≤ T

/-- Store well-formedness: every job satisfies the §3 invariant and every
id at or above the fresh-id counter is unbound. -/
def storeWF (s : JobStore) : Prop :=
  (∀ rid j, s.jobs rid = some j → jobInv j) ∧
  (∀ r, s.nextId ≤ r → s.jobs r = none)

/-- Modelled from the spec: the `detail` message a failed submission
surfaces to the client (§7: submission failures block the action with an
immediate message). -/
def errorDetail : ObpError → String
  | .NotFound => "request_id not found"
  | .InvalidTransition => "invalid job transition"
  | .StoreUnavailable => "store unavailable"
  | .Timeout => "timed out"
  | .UpstreamError => "upstream worker error"
  | .NotReady => "sample job is not completed yet"
  | .InvalidInput => "query must be non-empty and total_items must be positive"

/-- Modelled from the spec: §4.2 `submit_sample(query, total_items,
data_type)` — validates that `query` is non-empty and `total_items > 0`,
creates a `sample` job, and returns the new request id immediately.  The
Request Coordinator lives in the FastAPI service absent from the checked
sources. -/
def submit_sample (s : JobStore) (query : String) (total_items : Int) :
    Except ObpError (JobStore × Nat) :=
  if query = "" ∨ total_items ≤ 0 then .error .InvalidInput
  else .ok (s.create .sample (some total_items.toNat))

/-- Modelled from the spec: §4.2 `submit_full_download(request_id,
persist)` — requires that `request_id` names a `sample` job in `completed`
status and fails with `NotReady` otherwise; on success it creates a
`full_download` job and returns its handle immediately.  The second
component is the store after the call, so "no Job created" is the
statement that it equals the input store. -/
def start_full_run (s : JobStore) (rid : Nat) (_persist : Bool) :
    Except ObpError Nat × JobStore :=
  match s.jobs rid with
  | none => (.error .NotReady, s)
  | some j =>
      if j.kind == .sample && j.status == .completed then
        let (s', nrid) := s.create .full_download j.total
        (.ok nrid, s')
      else (.error .NotReady, s)

/-- The `planAndSample` handler of the BuildForm component (src/unnamed/
part_003) composed with the spec-modelled backend: an empty trimmed query
is blocked locally with the status message `Please enter a query.` and no
request; otherwise the POST is issued and a backend rejection surfaces
`data.detail` as the status message.  Returns the form's status text, the
requests issued, and the store after the call. -/
def buildFormSubmit (query : String) (total : Int) (data_type : String) (s : JobStore) :
    String × List ClientRequest × JobStore :=
  if jsTrim query = "" then ("Please enter a query.", [], s)
  else
    let req := ClientRequest.postPlanAndSample query total data_type
    match submit_sample s query total with
    | .error e => (errorDetail e, [req], s)
    | .ok (s', rid) =>
        ("Planned and sampled request " ++ toString rid ++ ".", [req], s')

/-! Helper lemmas shared by the claim theorems. -/

theorem setKey_setKey (m : List (String × SamplingStatus)) (k : String) (v : SamplingStatus) :
    setKey (setKey m k v) k v = setKey m k v := by
  induction m with
  | nil => simp [setKey]
  | cons hd tl ih =>
      obtain ⟨k', v'⟩ := hd
      by_cases h : k' = k
      · simp [setKey, h]
      · simp [setKey, h, ih]

theorem isPrefixOf_append_self (l t : List Char) : List.isPrefixOf l (l ++ t) = true := by
  induction l with
  | nil => simp [List.isPrefixOf]
  | cons a as ih => simp [List.isPrefixOf, ih]

theorem listContains_append (a b c : List Char) :
    listContains (a ++ (b ++ c)) b = true := by
  unfold listContains
  rw [List.any_eq_true]
  refine ⟨a.length, List.mem_range.mpr ?_, ?_⟩
  · simp [List.length_append]
    omega
  · rw [List.drop_left]
    exact isPrefixOf_append_self b c

theorem completionContent_includes (d : Option Int) :
    jsIncludes (completionContent d) "Dataset sampling completed" = true := by
  have h1 : "✅ Dataset sampling completed! " =
      "✅ " ++ ("Dataset sampling completed" ++ "! ") := by decide
  unfold jsIncludes completionContent
  rw [h1]
  simp only [String.data_append, List.append_assoc]
  exact listContains_append _ _ _

theorem hasCompletionMsg_append (request_id mid ts : String) (d : Option Int)
    (i ti cr : String) (ms : List Message) :
    hasCompletionMsg request_id
      ⟨i, ti, ms ++ [mkCompletionMessage mid ts request_id d], cr⟩ = true := by
  unfold hasCompletionMsg
  simp [List.any_append, mkCompletionMessage, completionContent_includes]

theorem addCompletionOne_idem (chatId request_id mid1 ts1 mid2 ts2 : String)
    (d1 d2 : Option Int) (c : Chat) :
    addCompletionOne chatId request_id (mkCompletionMessage mid2 ts2 request_id d2)
        (addCompletionOne chatId request_id (mkCompletionMessage mid1 ts1 request_id d1) c)
      = addCompletionOne chatId request_id (mkCompletionMessage mid1 ts1 request_id d1) c := by
  unfold addCompletionOne
  by_cases h : c.id = chatId
  · by_cases h2 : hasCompletionMsg request_id c
    · simp [h, h2]
    · simp [h, h2, hasCompletionMsg_append]
  · simp [h]

theorem addCompletionMessage_idem (chatId request_id mid1 ts1 mid2 ts2 : String)
    (d1 d2 : Option Int) (chats : List Chat) :
    addCompletionMessage chatId request_id (mkCompletionMessage mid2 ts2 request_id d2)
        (addCompletionMessage chatId request_id (mkCompletionMessage mid1 ts1 request_id d1) chats)
      = addCompletionMessage chatId request_id (mkCompletionMessage mid1 ts1 request_id d1) chats := by
  unfold addCompletionMessage
  induction chats with
  | nil => rfl
  | cons c cs ih =>
      simp only [List.map_cons]
      rw [addCompletionOne_idem]
      simp only [List.map_map] at ih ⊢
      rw [ih]

theorem storeWF_empty : storeWF emptyStore := by
  constructor
  · intro rid j h
    simp [emptyStore] at h
  · intro r _
    rfl

theorem rid_lt_nextId (s : JobStore) (rid : Nat) (j : Job)
    (h : storeWF s) (hj : s.jobs rid = some j) : rid < s.nextId := by
  by_contra hcon
  push_neg at hcon
  rw [h.2 rid hcon] at hj
  exact Option.noConfusion hj

theorem storeWF_setJob (s : JobStore) (rid : Nat) (j j' : Job)
    (h : storeWF s) (hj : s.jobs rid = some j) (hj' : jobInv j') :
    storeWF (s.setJob rid j') := by
  have hlt := rid_lt_nextId s rid j h hj
  constructor
  · intro r jr hr
    simp only [JobStore.setJob] at hr
    by_cases he : r = rid
    · rw [if_pos he] at hr
      injection hr with he2
      rw [← he2]
      exact hj'
    · rw [if_neg he] at hr
      exact h.1 r jr hr
  · intro r hge
    simp only [JobStore.setJob] at hge ⊢
    rw [if_neg (by omega : ¬ r = rid)]
    exact h.2 r hge

theorem update_progress_wf (s : JobStore) (rid p : Nat) (t : Option Nat) (s' : JobStore)
    (h : storeWF s) (he : s.update_progress rid p t = .ok s') : storeWF s' := by
  unfold JobStore.update_progress at he
  split at he
  · exact absurd he (by simp)
  rename_i j hr
  split at he
  · exact absurd he (by simp)
  rename_i hterm
  split at he
  · rename_i v
    simp only [Except.ok.injEq] at he
    subst he
    refine storeWF_setJob s rid j _ h hr ?_
    intro T hT
    simp only [Option.some.injEq] at hT
    rw [← hT]
    exact max_le (le_max_right _ _) (min_le_right _ _)
  · rename_i T0 ht0
    simp only [Except.ok.injEq] at he
    subst he
    refine storeWF_setJob s rid j _ h hr ?_
    intro T hT
    simp only [Option.some.injEq] at hT
    rw [← hT]
    exact max_le (h.1 rid j hr T0 ht0) (min_le_right _ _)
  · rename_i ht0
    simp only [Except.ok.injEq] at he
    subst he
    refine storeWF_setJob s rid j _ h hr ?_
    intro T hT
    exact absurd hT (by simp)

theorem complete_wf (s : JobStore) (rid : Nat) (ref : String) (s' : JobStore)
    (h : storeWF s) (he : s.complete rid ref = .ok s') : storeWF s' := by
  unfold JobStore.complete at he
  split at he
  · exact absurd he (by simp)
  rename_i j hr
  split at he
  · exact absurd he (by simp)
  rename_i hterm
  simp only [Except.ok.injEq] at he
  subst he
  refine storeWF_setJob s rid j _ h hr ?_
  intro T hT
  simp only at hT
  rw [hT]
  simp

theorem fail_wf (s : JobStore) (rid : Nat) (msg : String) (s' : JobStore)
    (h : storeWF s) (he : s.fail rid msg = .ok s') : storeWF s' := by
  unfold JobStore.fail at he
  split at he
  · exact absurd he (by simp)
  rename_i j hr
  split at he
  · exact absurd he (by simp)
  rename_i hterm
  simp only [Except.ok.injEq] at he
  subst he
  refine storeWF_setJob s rid j _ h hr ?_
  intro T hT
  simp only at hT
  exact h.1 rid j hr T hT

theorem create_wf (s : JobStore) (k : JobKind) (hint : Option Nat) (h : storeWF s) :
    storeWF (s.create k hint).1 := by
  constructor
  · intro r jr hr
    simp only [JobStore.create] at hr
    by_cases he : r = s.nextId
    · rw [if_pos he] at hr
      injection hr with he2
      rw [← he2]
      intro T _
      exact Nat.zero_le T
    · rw [if_neg he] at hr
      exact h.1 r jr hr
  · intro r hge
    simp only [JobStore.create] at hge ⊢
    rw [if_neg (by omega : ¬ r = s.nextId)]
    exact h.2 r (by omega)

theorem storeWF_applyOp (s : JobStore) (op : StoreOp) (h : storeWF s) :
    storeWF (applyOp s op) := by
  cases op with
  | create k hint => exact create_wf s k hint h
  | update rid p t =>
      simp only [applyOp]
      cases he : s.update_progress rid p t with
      | ok s' => exact update_progress_wf s rid p t s' h he
      | error e => exact h
  | complete rid ref =>
      simp only [applyOp]
      cases he : s.complete rid ref with
      | ok s' => exact complete_wf s rid ref s' h he
      | error e => exact h
  | fail rid msg =>
      simp only [applyOp]
      cases he : s.fail rid msg with
      | ok s' => exact fail_wf s rid msg s' h he
      | error e => exact h

theorem storeWF_applyOps (ops : List StoreOp) : storeWF (applyOps ops) := by
  suffices h : ∀ (l : List StoreOp) (s : JobStore), storeWF s → storeWF (l.foldl applyOp s) by
    exact h ops emptyStore storeWF_empty
  intro l
  induction l with
  | nil => intro s hs; exact hs
  | cons op l ih =>
      intro s hs
      exact ih _ (storeWF_applyOp s op hs)

theorem statusRank_le_two (st : JobStatus) : statusRank st ≤ 2 := by
  cases st <;> simp [statusRank]

theorem rank_le_one_of_not_terminal (st : JobStatus) (h : st.isTerminal = false) :
    statusRank st ≤ 1 := by
  cases st <;> simp [statusRank] <;> simp [JobStatus.isTerminal] at h

theorem setJob_jobs_eq (s : JobStore) (rid : Nat) (j' : Job) :
    (s.setJob rid j').jobs rid = some j' := by
  simp [JobStore.setJob]

theorem setJob_jobs_ne (s : JobStore) (rid : Nat) (j' : Job) (r : Nat) (h : ¬ r = rid) :
    (s.setJob rid j').jobs r = s.jobs r := by
  simp [JobStore.setJob, h]

theorem update_progress_frame (s : JobStore) (rid' p : Nat) (t : Option Nat) (s' : JobStore)
    (he : s.update_progress rid' p t = .ok s') (r : Nat) (hne : ¬ r = rid') :
    s'.jobs r = s.jobs r := by
  unfold JobStore.update_progress at he
  split at he
  · exact absurd he (by simp)
  rename_i j0 hr
  split at he
  · exact absurd he (by simp)
  rename_i hterm
  split at he <;>
    · simp only [Except.ok.injEq] at he
      subst he
      exact setJob_jobs_ne s rid' _ r hne

theorem update_progress_same (s : JobStore) (rid' p : Nat) (t : Option Nat) (s' : JobStore)
    (he : s.update_progress rid' p t = .ok s') :
    ∃ j0 j1, s.jobs rid' = some j0 ∧ j0.status.isTerminal = false ∧
      s'.jobs rid' = some j1 ∧ j0.progress ≤ j1.progress ∧ j1.status = .running := by
  unfold JobStore.update_progress at he
  split at he
  · exact absurd he (by simp)
  rename_i j0 hr
  split at he
  · exact absurd he (by simp)
  rename_i hterm
  split at he <;>
    · simp only [Except.ok.injEq] at he
      subst he
      exact ⟨j0, _, hr, by simpa using hterm, setJob_jobs_eq s rid' _,
        le_max_left _ _, rfl⟩

theorem complete_frame (s : JobStore) (rid' : Nat) (ref : String) (s' : JobStore)
    (he : s.complete rid' ref = .ok s') (r : Nat) (hne : ¬ r = rid') :
    s'.jobs r = s.jobs r := by
  unfold JobStore.complete at he
  split at he
  · exact absurd he (by simp)
  rename_i j0 hr
  split at he
  · exact absurd he (by simp)
  rename_i hterm
  simp only [Except.ok.injEq] at he
  subst he
  exact setJob_jobs_ne s rid' _ r hne

theorem complete_same (s : JobStore) (rid' : Nat) (ref : String) (s' : JobStore)
    (h : storeWF s) (he : s.complete rid' ref = .ok s') :
    ∃ j0 j1, s.jobs rid' = some j0 ∧ j0.status.isTerminal = false ∧
      s'.jobs rid' = some j1 ∧ j0.progress ≤ j1.progress ∧ j1.status = .completed := by
  unfold JobStore.complete at he
  split at he
  · exact absurd he (by simp)
  rename_i j0 hr
  split at he
  · exact absurd he (by simp)
  rename_i hterm
  simp only [Except.ok.injEq] at he
  subst he
  refine ⟨j0, _, hr, by simpa using hterm, setJob_jobs_eq s rid' _, ?_, rfl⟩
  cases ht0 : j0.total with
  | none => simp [ht0]
  | some T => simp [ht0, h.1 rid' j0 hr T ht0]

theorem fail_frame (s : JobStore) (rid' : Nat) (msg : String) (s' : JobStore)
    (he : s.fail rid' msg = .ok s') (r : Nat) (hne : ¬ r = rid') :
    s'.jobs r = s.jobs r := by
  unfold JobStore.fail at he
  split at he
  · exact absurd he (by simp)
  rename_i j0 hr
  split at he
  · exact absurd he (by simp)
  rename_i hterm
  simp only [Except.ok.injEq] at he
  subst he
  exact setJob_jobs_ne s rid' _ r hne

theorem fail_same (s : JobStore) (rid' : Nat) (msg : String) (s' : JobStore)
    (he : s.fail rid' msg = .ok s') :
    ∃ j0 j1, s.jobs rid' = some j0 ∧ j0.status.isTerminal = false ∧
      s'.jobs rid' = some j1 ∧ j0.progress ≤ j1.progress ∧ j1.status = .error := by
  unfold JobStore.fail at he
  split at he
  · exact absurd he (by simp)
  rename_i j0 hr
  split at he
  · exact absurd he (by simp)
  rename_i hterm
  simp only [Except.ok.injEq] at he
  subst he
  exact ⟨j0, _, hr, by simpa using hterm, setJob_jobs_eq s rid' _, le_refl _, rfl⟩

theorem applyOp_monotone (s : JobStore) (op : StoreOp) (rid : Nat) (j j' : Job)
    (h : storeWF s) (hj : s.jobs rid = some j)
    (hj' : (applyOp s op).jobs rid = some j') :
    j.progress ≤ j'.progress ∧ statusRank j.status ≤ statusRank j'.status
    ∧ (j.status.isTerminal = true → j' = j) := by
  have htriv : j' = j →
      j.progress ≤ j'.progress ∧ statusRank j.status ≤ statusRank j'.status
      ∧ (j.status.isTerminal = true → j' = j) := by
    intro he
    subst he
    exact ⟨le_refl _, le_refl _, fun _ => rfl⟩
  have hsame : ∀ j1, j' = j1 → j.status.isTerminal = false →
      j.progress ≤ j1.progress → (statusRank j1.status = 1 ∨ statusRank j1.status = 2) →
      j.progress ≤ j'.progress ∧ statusRank j.status ≤ statusRank j'.status
      ∧ (j.status.isTerminal = true → j' = j) := by
    intro j1 he hterm hle hrank
    subst he
    refine ⟨hle, ?_, ?_⟩
    · have h1 := rank_le_one_of_not_terminal j.status hterm
      cases hrank with
      | inl hr1 => omega
      | inr hr2 => omega
    · intro ht2
      rw [ht2] at hterm
      exact absurd hterm (by simp)
  cases op with
  | create k hint =>
      have hlt := rid_lt_nextId s rid j h hj
      apply htriv
      simp only [applyOp, JobStore.create] at hj'
      rw [if_neg (by omega : ¬ rid = s.nextId), hj] at hj'
      injection hj' with h2
      exact h2.symm
  | update rid' p t =>
      simp only [applyOp] at hj'
      cases he : s.update_progress rid' p t with
      | error e =>
          rw [he] at hj'
          apply htriv
          rw [hj] at hj'
          injection hj' with h2
          exact h2.symm
      | ok s' =>
          rw [he] at hj'
          by_cases hrr : rid = rid'
          · subst hrr
            obtain ⟨j0, j1, hr, hterm, hl1, hle, hst⟩ :=
              update_progress_same s rid p t s' he
            rw [hr] at hj
            injection hj with h2
            subst h2
            rw [hl1] at hj'
            injection hj' with h3
            exact hsame j1 h3.symm hterm hle (by rw [hst]; exact Or.inl rfl)
          · apply htriv
            rw [update_progress_frame s rid' p t s' he rid hrr, hj] at hj'
            injection hj' with h2
            exact h2.symm
  | complete rid' ref =>
      simp only [applyOp] at hj'
      cases he : s.complete rid' ref with
      | error e =>
          rw [he] at hj'
          apply htriv
          rw [hj] at hj'
          injection hj' with h2
          exact h2.symm
      | ok s' =>
          rw [he] at hj'
          by_cases hrr : rid = rid'
          · subst hrr
            obtain ⟨j0, j1, hr, hterm, hl1, hle, hst⟩ :=
              complete_same s rid ref s' h he
            rw [hr] at hj
            injection hj with h2
            subst h2
            rw [hl1] at hj'
            injection hj' with h3
            exact hsame j1 h3.symm hterm hle (by rw [hst]; exact Or.inr rfl)
          · apply htriv
            rw [complete_frame s rid' ref s' he rid hrr, hj] at hj'
            injection hj' with h2
            exact h2.symm
  | fail rid' msg =>
      simp only [applyOp] at hj'
      cases he : s.fail rid' msg with
      | error e =>
          rw [he] at hj'
          apply htriv
          rw [hj] at hj'
          injection hj' with h2
          exact h2.symm
      | ok s' =>
          rw [he] at hj'
          by_cases hrr : rid = rid'
          · subst hrr
            obtain ⟨j0, j1, hr, hterm, hl1, hle, hst⟩ :=
              fail_same s rid msg s' he
            rw [hr] at hj
            injection hj with h2
            subst h2
            rw [hl1] at hj'
            injection hj' with h3
            exact hsame j1 h3.symm hterm hle (by rw [hst]; exact Or.inr rfl)
          · apply htriv
            rw [fail_frame s rid' msg s' he rid hrr, hj] at hj'
            injection hj' with h2
            exact h2.symm

theorem update_progress_terminal (s : JobStore) (rid : Nat) (j : Job) (p : Nat) (t : Option Nat)
    (hj : s.jobs rid = some j) (hterm : j.status.isTerminal = true) :
    s.update_progress rid p t = .error .InvalidTransition := by
  simp [JobStore.update_progress, hj, hterm]

/-! Claim theorems. -/

/-- C6: the poller's fixed wait between status checks is 2000 ms and its
give-up bound is 300000 ms, exactly 150 times the interval. -/
theorem poll_timing_defaults :
    pollIntervalMs = 2000 ∧ pollMaxWaitMs = 300000 ∧
      pollMaxWaitMs = 150 * pollIntervalMs := by
  refine ⟨rfl, rfl, ?_⟩
  norm_num [pollIntervalMs, pollMaxWaitMs]

/-- C9: a GET to the download-progress route without a `request_id` query
parameter yields HTTP 400 with an error payload and performs no backend
fetch, whatever the backend would have answered. -/
theorem download_progress_missing_request_id (backend : BackendFetch) :
    downloadProgressRoute none backend
      = ((400, DPBody.err "request_id parameter is required"), []) := rfl

/-- C1 (counterexample): the claim says a response with terminal status
`error` stops the poller and a `running` response makes it retry; in the
code, a response with `status = "error"`, `downloaded = 0`, `total = 50`
does not clear the interval, while a `running` response with
`downloaded = 50 ≥ total = 50` does. -/
theorem poll_error_status_does_not_stop :
    (pollTick "r1" "c1" "m1" "t1"
        (.ok { status := some "error", downloaded := some 0, total := some 50 })
        { sampling := [], chats := [] }).2 = false
    ∧ (pollTick "r1" "c1" "m1" "t1"
        (.ok { status := some "running", downloaded := some 50, total := some 50 })
        { sampling := [], chats := [] }).2 = true := by
  exact ⟨rfl, rfl⟩

/-- C1 (amended): a poll iteration clears the interval exactly when the
fetch throws or the ok response satisfies the stop condition
`status === 'completed' || downloaded >= total`; an `error` status alone
does not stop the loop, and pending/running responses below the total
(as well as non-ok HTTP responses) cause a retry. -/
theorem poll_stop_characterization (request_id chatId mid ts : String)
    (d : ProgressData) (st : PollState) :
    (pollTick request_id chatId mid ts (.ok d) st).2 = stopCond d
    ∧ (pollTick request_id chatId mid ts .fetchThrow st).2 = true
    ∧ (pollTick request_id chatId mid ts .httpErr st).2 = false := by
  refine ⟨?_, rfl, rfl⟩
  simp only [pollTick]
  by_cases h : stopCond d <;> simp [h]

theorem runPollAux_fetches_only_reads (request_id chatId : String)
    (gen : Nat → String × String) (f : Nat → TickResult) :
    ∀ (fuel i : Nat) (st : PollState),
      ((runPollAux request_id chatId gen f fuel i st).fetches.all
        fun q => q == ClientRequest.getProgress request_id) = true := by
  intro fuel
  induction fuel with
  | zero => intro i st; rfl
  | succ n ih =>
      intro i st
      simp only [runPollAux]
      cases hp : pollTick request_id chatId (gen i).1 (gen i).2 (f i) st with
      | mk st' cleared =>
          cases cleared with
          | true => simp
          | false => simp [ih]

theorem pollTick_continue (request_id chatId mid ts : String) (t : TickResult)
    (st : PollState) (h : tickContinues t = true) :
    (pollTick request_id chatId mid ts t st).2 = false
    ∧ (pollTick request_id chatId mid ts t st).1.chats = st.chats := by
  cases t with
  | fetchThrow => simp [tickContinues] at h
  | httpErr => exact ⟨rfl, rfl⟩
  | ok d =>
      have hs : stopCond d = false := by
        simpa [tickContinues] using h
      simp [pollTick, hs]

theorem runPollAux_continue (request_id chatId : String)
    (gen : Nat → String × String) (f : Nat → TickResult) :
    ∀ (fuel i : Nat) (st : PollState),
      (∀ m, m < fuel → tickContinues (f (i + m)) = true) →
      (runPollAux request_id chatId gen f fuel i st).fetches.length = fuel
      ∧ (runPollAux request_id chatId gen f fuel i st).state.chats = st.chats := by
  intro fuel
  induction fuel with
  | zero => intro i st _; exact ⟨rfl, rfl⟩
  | succ n ih =>
      intro i st hcont
      have h0 : tickContinues (f i) = true := by
        simpa using hcont 0 n.succ_pos
      obtain ⟨hc, hch⟩ := pollTick_continue request_id chatId (gen i).1 (gen i).2 (f i) st h0
      simp only [runPollAux]
      cases hp : pollTick request_id chatId (gen i).1 (gen i).2 (f i) st with
      | mk st' cleared =>
          rw [hp] at hc hch
          simp only at hc hch
          subst hc
          have hnext : ∀ m, m < n → tickContinues (f (i + 1 + m)) = true := by
            intro m hm
            have h := hcont (m + 1) (Nat.succ_lt_succ hm)
            rw [show i + (m + 1) = i + 1 + m by omega] at h
            exact h
          obtain ⟨hl, hchats⟩ := ih (i + 1) st' hnext
          refine ⟨?_, ?_⟩
          · simp [hl]
          · simpa [hchats] using hch

theorem runPollAux_throw (request_id chatId : String)
    (gen : Nat → String × String) (f : Nat → TickResult) :
    ∀ (n fuel i : Nat) (st : PollState), n < fuel → f (i + n) = .fetchThrow →
      (∀ m, m < n → tickContinues (f (i + m)) = true) →
      (runPollAux request_id chatId gen f fuel i st).fetches.length = n + 1
      ∧ (runPollAux request_id chatId gen f fuel i st).state.chats = st.chats := by
  intro n
  induction n with
  | zero =>
      intro fuel i st hf hthrow _
      cases fuel with
      | zero => omega
      | succ fuel' =>
          have hi : f i = .fetchThrow := by simpa using hthrow
          simp [runPollAux, hi, pollTick]
  | succ n ih =>
      intro fuel i st hf hthrow hcont
      cases fuel with
      | zero => omega
      | succ fuel' =>
          have h0 : tickContinues (f i) = true := by
            simpa using hcont 0 n.succ_pos
          obtain ⟨hc, hch⟩ := pollTick_continue request_id chatId (gen i).1 (gen i).2 (f i) st h0
          simp only [runPollAux]
          cases hp : pollTick request_id chatId (gen i).1 (gen i).2 (f i) st with
          | mk st' cleared =>
              rw [hp] at hc hch
              simp only at hc hch
              subst hc
              have hthrow' : f (i + 1 + n) = .fetchThrow := by
                rw [show i + 1 + n = i + (n + 1) by omega]
                exact hthrow
              have hnext : ∀ m, m < n → tickContinues (f (i + 1 + m)) = true := by
                intro m hm
                have h := hcont (m + 1) (Nat.succ_lt_succ hm)
                rw [show i + (m + 1) = i + 1 + m by omega] at h
                exact h
              obtain ⟨hl, hchats⟩ := ih fuel' (i + 1) st' (by omega) hthrow' hnext
              refine ⟨?_, ?_⟩
              · simp [hl]
              · simpa [hchats] using hch

/-- C7: the poll loop only ever issues status reads — every request in any
run of the loop is the GET of `/api/download-progress` for the polled
request id, so neither polling nor abandoning the loop mutates or cancels
the job — and the download-progress route proxy itself performs only GET
calls against the backend. -/
theorem poller_never_mutates (request_id chatId : String)
    (gen : Nat → String × String) (f : Nat → TickResult) (st : PollState) :
    ((runPoll request_id chatId gen f st).fetches.all
        fun q => q == ClientRequest.getProgress request_id) = true
    ∧ ∀ ro backend, ((downloadProgressRoute ro backend).2.all BackendCall.isGet) = true := by
  refine ⟨runPollAux_fetches_only_reads request_id chatId gen f maxTicks 0 st, ?_⟩
  intro ro backend
  cases ro with
  | none => rfl
  | some rid =>
      by_cases h : rid = ""
      · simp [downloadProgressRoute, h]
      · cases backend with
        | throwErr => simp [downloadProgressRoute, h, BackendCall.isGet]
        | resp ok status d =>
            cases ok <;> simp [downloadProgressRoute, h, BackendCall.isGet]

/-- C10: if the fetch of some poll iteration throws before any terminal
response was seen, the interval is cleared at that iteration — the loop
issues exactly `k + 1` status checks and never another — and no outcome
of any kind reaches the observer: the chat transcript is untouched. -/
theorem poll_fetch_throw_stops_silently (request_id chatId : String)
    (gen : Nat → String × String) (f : Nat → TickResult) (st : PollState) (k : Nat)
    (hk : k < maxTicks) (hthrow : f k = .fetchThrow)
    (hcont : ∀ i, i < k → tickContinues (f i) = true) :
    (runPoll request_id chatId gen f st).fetches.length = k + 1
    ∧ (runPoll request_id chatId gen f st).state.chats = st.chats := by
  have h := runPollAux_throw request_id chatId gen f k maxTicks 0 st hk
    (by simpa using hthrow) (by intro m hm; simpa using hcont m hm)
  simpa [runPoll] using h

/-- C10 (witness): a trace whose second fetch throws after one running
response: the loop performs exactly two status checks and adds nothing to
the chat transcript. -/
theorem poll_fetch_throw_stops_silently_witness :
    (1 < maxTicks
      ∧ (fun i => if i = 1 then TickResult.fetchThrow
          else .ok { status := some "running", downloaded := some 0, total := some 50 }) 1
            = TickResult.fetchThrow
      ∧ (∀ i : Nat, i < 1 → tickContinues
          ((fun i => if i = 1 then TickResult.fetchThrow
            else .ok { status := some "running", downloaded := some 0, total := some 50 }) i) = true))
    ∧ (runPoll "r1" "c1" (fun _ => ("m", "t"))
        (fun i => if i = 1 then TickResult.fetchThrow
          else .ok { status := some "running", downloaded := some 0, total := some 50 })
        { sampling := [], chats := [] }).fetches.length = 1 + 1
    ∧ (runPoll "r1" "c1" (fun _ => ("m", "t"))
        (fun i => if i = 1 then TickResult.fetchThrow
          else .ok { status := some "running", downloaded := some 0, total := some 50 })
        { sampling := [], chats := [] }).state.chats
      = ({ sampling := [], chats := [] } : PollState).chats := by
  refine ⟨⟨by decide, rfl, by decide⟩, ?_⟩
  exact poll_fetch_throw_stops_silently "r1" "c1" (fun _ => ("m", "t")) _ _ 1
    (by decide) rfl (by decide)

/-- C3 (counterexample): the claim says a job that is not terminal by
`max_wait` makes the poller yield a `Timeout` outcome distinguishable
from a job-error outcome.  In the code, after the give-up timeout fires
the chat transcript is exactly the initial one — no Timeout outcome is
emitted — and the run over an always-`running` job leaves the very same
transcript as the run over a job that reported status `"error"` on every
poll, so the caller cannot distinguish the two from the poller's output. -/
theorem poll_timeout_yields_no_outcome :
    (runPoll "r1" "c1" (fun _ => ("m", "t"))
        (fun _ => .ok { status := some "running", downloaded := some 10, total := some 50 })
        { sampling := [], chats := [⟨"c1", "chat", [], "0"⟩] }).state.chats
      = [⟨"c1", "chat", [], "0"⟩]
    ∧ (runPoll "r1" "c1" (fun _ => ("m", "t"))
        (fun _ => .ok { status := some "error", downloaded := some 10, total := some 50 })
        { sampling := [], chats := [⟨"c1", "chat", [], "0"⟩] }).state.chats
      = [⟨"c1", "chat", [], "0"⟩]
    ∧ (runPoll "r1" "c1" (fun _ => ("m", "t"))
        (fun _ => .ok { status := some "running", downloaded := some 10, total := some 50 })
        { sampling := [], chats := [⟨"c1", "chat", [], "0"⟩] }).fetches.length = maxTicks := by
  exact ⟨rfl, rfl, rfl⟩

/-- C3 (amended): when every response before the give-up timeout keeps the
loop going, the poller stops after exactly `maxTicks` status checks but
yields no Timeout outcome — the chat transcript is unchanged, exactly as
after a run over a job that kept reporting `"error"`. -/
theorem poll_timeout_silent (request_id chatId : String)
    (gen : Nat → String × String) (f : Nat → TickResult) (st : PollState)
    (hcont : ∀ i, i < maxTicks → tickContinues (f i) = true) :
    (runPoll request_id chatId gen f st).fetches.length = maxTicks
    ∧ (runPoll request_id chatId gen f st).state.chats = st.chats := by
  have h := runPollAux_continue request_id chatId gen f maxTicks 0 st
    (by intro m hm; simpa using hcont m hm)
  simpa [runPoll] using h

/-- C3 (amended, witness): the always-running trace instantiates the
timeout hypothesis. -/
theorem poll_timeout_silent_witness :
    (∀ i : Nat, i < maxTicks → tickContinues
        ((fun _ => TickResult.ok
          { status := some "running", downloaded := some 10, total := some 50 }) i) = true)
    ∧ (runPoll "r1" "c1" (fun _ => ("m", "t"))
        (fun _ => .ok { status := some "running", downloaded := some 10, total := some 50 })
        { sampling := [], chats := [] }).fetches.length = maxTicks
    ∧ (runPoll "r1" "c1" (fun _ => ("m", "t"))
        (fun _ => .ok { status := some "running", downloaded := some 10, total := some 50 })
        { sampling := [], chats := [] }).state.chats
      = ({ sampling := [], chats := [] } : PollState).chats := by
  refine ⟨fun i _ => rfl, ?_⟩
  exact poll_timeout_silent "r1" "c1" (fun _ => ("m", "t")) _ _ (fun i _ => rfl)

/-- C2: over any sequence of Job Store operations, every reachable job
satisfies `progress ≤ total` once the total is known; one further
operation never decreases `progress`, never moves `status` backward along
`pending → running → completed/error`, and a terminal job is frozen —
the next operation leaves it unchanged and any `update_progress` against
it fails with `InvalidTransition`. -/
theorem jobstore_lifecycle_invariants (ops : List StoreOp) (op : StoreOp) (rid : Nat)
    (j j' : Job) (p : Nat) (t : Option Nat)
    (hj : (applyOps ops).jobs rid = some j)
    (hj' : (applyOp (applyOps ops) op).jobs rid = some j') :
    (∀ r jr, (applyOps ops).jobs r = some jr → jobInv jr)
    ∧ j.progress ≤ j'.progress
    ∧ statusRank j.status ≤ statusRank j'.status
    ∧ (j.status.isTerminal = true →
        j' = j ∧ (applyOps ops).update_progress rid p t
          = Except.error ObpError.InvalidTransition) := by
  have hWF := storeWF_applyOps ops
  obtain ⟨h1, h2, h3⟩ := applyOp_monotone (applyOps ops) op rid j j' hWF hj hj'
  exact ⟨hWF.1, h1, h2, fun ht =>
    ⟨h3 ht, update_progress_terminal (applyOps ops) rid j p t hj ht⟩⟩

/-- C2 (witness): a sample job created with total 50 and completed; the
subsequent `update_progress` is the operation under scrutiny. -/
theorem jobstore_lifecycle_invariants_witness :
    ((applyOps [.create .sample (some 50), .complete 0 "ref"]).jobs 0
        = some ⟨.sample, .completed, 50, some 50, some "ref", none, 1, 2⟩
      ∧ (applyOp (applyOps [.create .sample (some 50), .complete 0 "ref"])
          (.update 0 60 none)).jobs 0
        = some ⟨.sample, .completed, 50, some 50, some "ref", none, 1, 2⟩)
    ∧ ((∀ r jr, (applyOps [.create .sample (some 50), .complete 0 "ref"]).jobs r
          = some jr → jobInv jr)
      ∧ (⟨.sample, .completed, 50, some 50, some "ref", none, 1, 2⟩ : Job).progress
          ≤ (⟨.sample, .completed, 50, some 50, some "ref", none, 1, 2⟩ : Job).progress
      ∧ statusRank (⟨.sample, .completed, 50, some 50, some "ref", none, 1, 2⟩ : Job).status
          ≤ statusRank (⟨.sample, .completed, 50, some 50, some "ref", none, 1, 2⟩ : Job).status
      ∧ ((⟨.sample, .completed, 50, some 50, some "ref", none, 1, 2⟩ : Job).status.isTerminal = true →
          (⟨.sample, .completed, 50, some 50, some "ref", none, 1, 2⟩ : Job)
            = ⟨.sample, .completed, 50, some 50, some "ref", none, 1, 2⟩
          ∧ (applyOps [.create .sample (some 50), .complete 0 "ref"]).update_progress 0 60 none
            = Except.error ObpError.InvalidTransition)) :=
  ⟨⟨rfl, rfl⟩,
    jobstore_lifecycle_invariants [.create .sample (some 50), .complete 0 "ref"]
      (.update 0 60 none) 0
      ⟨.sample, .completed, 50, some 50, some "ref", none, 1, 2⟩
      ⟨.sample, .completed, 50, some 50, some "ref", none, 1, 2⟩ 60 none rfl rfl⟩

/-- C4: `submit_full_download` against a request id whose job is not in
`completed` status fails with `NotReady` and leaves the store unchanged
(no Job created); against a completed `sample` job it immediately returns
a run handle (the fresh id) together with the store extended by the new
`full_download` job.  The `start-full-run` route proxy forwards a backend
rejection verbatim as a `detail` error with the backend's status code. -/
theorem submit_full_download_gating (s : JobStore) (rid : Nat) (j : Job) (persist : Bool)
    (hj : s.jobs rid = some j) :
    (j.status ≠ .completed → start_full_run s rid persist = (.error .NotReady, s))
    ∧ (j.kind = .sample → j.status = .completed →
        start_full_run s rid persist
          = (.ok s.nextId, (s.create .full_download j.total).1))
    ∧ (∀ st d, startFullRunRoute (.resp false st d)
        = (st, .detail (jsOrStr d "FastAPI error"))) := by
  refine ⟨?_, ?_, fun st d => rfl⟩
  · intro hne
    have h2 : (j.kind == JobKind.sample && j.status == JobStatus.completed) = false := by
      have : (j.status == JobStatus.completed) = false := by
        simp [hne]
      simp [this]
    unfold start_full_run
    rw [hj]
    simp [h2]
  · intro hk hst
    unfold start_full_run
    rw [hj]
    simp [hk, hst, JobStore.create]

/-- C4 (witness): a store holding a completed sample job at id 0; the
second conjunct returns the run handle, the first is vacuous there. -/
theorem submit_full_download_gating_witness :
    ((applyOps [.create .sample (some 5), .complete 0 "r"]).jobs 0
        = some ⟨.sample, .completed, 5, some 5, some "r", none, 1, 2⟩)
    ∧ (((⟨.sample, .completed, 5, some 5, some "r", none, 1, 2⟩ : Job).status ≠ .completed →
          start_full_run (applyOps [.create .sample (some 5), .complete 0 "r"]) 0 true
            = (.error .NotReady, applyOps [.create .sample (some 5), .complete 0 "r"]))
      ∧ ((⟨.sample, .completed, 5, some 5, some "r", none, 1, 2⟩ : Job).kind = .sample →
          (⟨.sample, .completed, 5, some 5, some "r", none, 1, 2⟩ : Job).status = .completed →
          start_full_run (applyOps [.create .sample (some 5), .complete 0 "r"]) 0 true
            = (.ok (applyOps [.create .sample (some 5), .complete 0 "r"]).nextId,
                ((applyOps [.create .sample (some 5), .complete 0 "r"]).create .full_download
                  (⟨.sample, .completed, 5, some 5, some "r", none, 1, 2⟩ : Job).total).1))
      ∧ (∀ st d, startFullRunRoute (.resp false st d)
          = (st, .detail (jsOrStr d "FastAPI error")))) :=
  ⟨rfl,
    submit_full_download_gating (applyOps [.create .sample (some 5), .complete 0 "r"]) 0
      ⟨.sample, .completed, 5, some 5, some "r", none, 1, 2⟩ true rfl⟩

/-- C8: the BuildForm submission path blocks an empty (all-whitespace)
query locally with the immediate message `Please enter a query.`, issuing
no request and creating no job; with a non-empty query and a non-positive
`total_items` the spec-modelled coordinator validation rejects the
submission, the form surfaces the `detail` message immediately, and the
store is unchanged — no job is created. -/
theorem submit_sample_validation (query : String) (total : Int) (data_type : String)
    (s : JobStore) :
    (jsTrim query = "" →
      buildFormSubmit query total data_type s = ("Please enter a query.", [], s))
    ∧ (jsTrim query ≠ "" → total ≤ 0 →
        buildFormSubmit query total data_type s
          = (errorDetail .InvalidInput,
              [ClientRequest.postPlanAndSample query total data_type], s)) := by
  constructor
  · intro h
    simp [buildFormSubmit, h]
  · intro h hle
    simp [buildFormSubmit, h, submit_sample, hle]

/-- C8 (witness): the empty query is blocked locally; the query `"x"` with
`total_items = 0` is rejected by validation with no job created. -/
theorem submit_sample_validation_witness :
    (jsTrim "" = ""
      ∧ buildFormSubmit "" 5 "auto" emptyStore = ("Please enter a query.", [], emptyStore))
    ∧ (jsTrim "x" ≠ "" ∧ (0 : Int) ≤ 0
      ∧ buildFormSubmit "x" 0 "auto" emptyStore
          = (errorDetail .InvalidInput,
              [ClientRequest.postPlanAndSample "x" 0 "auto"], emptyStore)) :=
  ⟨⟨by decide, (submit_sample_validation "" 5 "auto" emptyStore).1 (by decide)⟩,
    ⟨by decide, by decide,
      (submit_sample_validation "x" 0 "auto" emptyStore).2 (by decide) (by decide)⟩⟩

/-- C5: observing the same poll response twice is idempotent at the
observer layer — in particular a second observation of a completed job
re-emits no duplicate completion notification, thanks to the
de-duplication check on the chat transcript.  The fresh message id and
timestamp of the second observation may differ. -/
theorem poll_observation_idempotent (request_id chatId mid1 ts1 mid2 ts2 : String)
    (t : TickResult) (st : PollState) :
    (pollTick request_id chatId mid2 ts2 t
        (pollTick request_id chatId mid1 ts1 t st).1).1
      = (pollTick request_id chatId mid1 ts1 t st).1 := by
  cases t with
  | fetchThrow => rfl
  | httpErr => rfl
  | ok d =>
      simp only [pollTick]
      by_cases h : stopCond d
      · simp [h, setKey_setKey, addCompletionMessage_idem]
      · simp [h, setKey_setKey]

end OBP
